import Mathlib

/-!
Shallow embedding of the build configuration of the joren.co static blog:
the Eleventy configuration (posts collection filter, image shortcode,
layout alias table) and the PostCSS pipeline configuration
(postcss.config.js), together with theorems about their behaviour.
-/

/-- A JavaScript value, as far as the configuration code observes one:
front-matter attribute values and the environment flag passed to the
PostCSS config. An attribute missing from an object reads as undefined. -/
inductive JsValue where
  | undefined
  | null
  | bool (b : Bool)
  | str (s : String)
  | num (n : Int)
deriving DecidableEq, Repr

/-- The front-matter data of a content item as the collection filter reads
it (post.data): only the hidden attribute is consulted. -/
structure FrontMatter where
  hidden : JsValue
deriving DecidableEq, Repr

/-- A Markdown content item of the generator: its source path and its
front-matter data. -/
structure ContentItem where
  inputPath : String
  data : FrontMatter
deriving DecidableEq, Repr

/-- Whether a path matches the fixed non-recursive glob of the collection,
given as the pattern string underscore-posts slash star dot md: the path
starts with the directory prefix of length 7, the remaining file name ends
in the three-character extension .md, the star segment before the
extension contains no path separator, and the file name does not start
with a dot (a glob star does not match dotfiles). -/
def matchesGlobPostsMd (path : String) : Bool :=
  "_posts/".data.isPrefixOf path.data &&
  (".md".data.isSuffixOf (path.data.drop 7) &&
   (!((path.data.drop 7).take ((path.data.drop 7).length - 3)).contains '/' &&
    (path.data.drop 7).head? != some '.'))

/-- collectionApi.getFilteredByGlob applied to the fixed glob: the content
items whose input path matches, kept in the generator's discovery order. -/
def getFilteredByGlob (items : List ContentItem) : List ContentItem :=
  items.filter (fun p => matchesGlobPostsMd p.inputPath)

/-- The derived posts collection registered with addCollection: the
glob-filtered items whose front-matter hidden attribute is not strictly
equal to the boolean true. -/
def postsCollection (items : List ContentItem) : List ContentItem :=
  (getFilteredByGlob items).filter
    (fun post => post.data.hidden != JsValue.bool true)

/-- The resize options of the image shortcode. -/
structure ImageOptions where
  widths : List Nat
  outputDir : String
deriving DecidableEq, Repr

/-- The options the shortcode passes to the image library: the five fixed
widths (max width based on the layout container width times two) and the
designated output directory. -/
def imageShortcodeOptions : ImageOptions :=
  ⟨[400, 800, 1000, 1200, 1450], "./_site/img/"⟩

/-- The state of the source tree as the image library sees it: the content
a source path resolves to, when the file exists. -/
def FileSystem : Type := String → Option String

/-- One resized raster output produced by the image library. -/
structure ImageVariant where
  width : Nat
  url : String
deriving DecidableEq, Repr

/-- The attributes the shortcode passes to the markup generator. -/
structure ImageAttributes where
  alt : String
  sizes : String
deriving DecidableEq, Repr

/-- Modelled from the spec: the external image library call
Image(src, opts), from a package that is not part of this repository. It
is deterministic, keyed by the source content, the requested widths and
the output directory, writing one variant per requested width into the
output directory; a source path that does not resolve fails with a
not-found condition. -/
def imageTransform (fs : FileSystem) (src : String) (opts : ImageOptions) :
    Except String (List ImageVariant) :=
  match fs src with
  | none => Except.error ("Image file not found: " ++ src)
  | some content =>
      Except.ok (opts.widths.map (fun w =>
        ⟨w, opts.outputDir ++ toString w ++ "-" ++ content⟩))

/-- The srcset attribute value referencing every variant. -/
def srcsetOf (variants : List ImageVariant) : String :=
  String.intercalate ", "
    (variants.map (fun v => v.url ++ " " ++ toString v.width ++ "w"))

/-- Modelled from the spec: Image.generateHTML of the external image
library, returning a responsive image element whose srcset references the
variants and which carries the given sizes and alt attributes. -/
def generateHTML (variants : List ImageVariant) (attrs : ImageAttributes) :
    String :=
  "<img srcset=\"" ++ srcsetOf variants ++ "\" sizes=\"" ++ attrs.sizes ++
    "\" alt=\"" ++ attrs.alt ++ "\">"

/-- The image shortcode: awaits the library transform at the fixed options
and returns the generated markup; an error from the library is not caught,
retried or recovered from. -/
def imageShortcode (fs : FileSystem) (src alt sizes : String) :
    Except String String :=
  (imageTransform fs src imageShortcodeOptions).map
    (fun metadata => generateHTML metadata ⟨alt, sizes⟩)

/-- Modelled from the spec: the generator's handling of a shortcode
result — an uncaught error aborts the build with a non-zero exit code and
publishes no HTML; a success publishes the markup with exit code zero. -/
def buildOutcome (r : Except String String) : Nat × Option String :=
  match r with
  | Except.error _ => (1, none)
  | Except.ok html => (0, some html)

/-- The layout alias table accumulated by the two addLayoutAlias calls. -/
def layoutAliases : List (String × String) :=
  [("default", "layouts/default.njk"), ("post", "layouts/post.njk")]

/-- Resolving a symbolic layout name against the alias table. -/
def resolveLayout (name : String) : Option String :=
  (layoutAliases.find? (fun e => e.fst == name)).map (fun e => e.snd)

/-- A stage of the PostCSS transform chain. -/
inductive CssPlugin where
  | postcssImport
  | tailwindcss
  | postcssNested
  | cssnano
deriving DecidableEq, Repr

/-- An entry of the plugins array of postcss.config.js: a plugin, or the
literal false that the ternary puts in the minifier slot outside
production. -/
inductive PluginEntry where
  | plugin (p : CssPlugin)
  | disabled
deriving DecidableEq, Repr

/-- postcss.config.js: the plugins array as a function of the env flag,
with the minifier present exactly when env is strictly equal to the
string production. -/
def postcssConfig (env : JsValue) : List PluginEntry :=
  [PluginEntry.plugin CssPlugin.postcssImport,
   PluginEntry.plugin CssPlugin.tailwindcss,
   PluginEntry.plugin CssPlugin.postcssNested,
   if env = JsValue.str "production" then PluginEntry.plugin CssPlugin.cssnano
   else PluginEntry.disabled]

/-- Modelled from the spec: PostCSS (external tool) runs the plugins array
in order, skipping entries that are the literal false — this realises the
conditional minification stage. -/
def effectivePlugins (env : JsValue) : List CssPlugin :=
  (postcssConfig env).filterMap (fun e =>
    match e with
    | PluginEntry.plugin p => some p
    | PluginEntry.disabled => none)

/-- Running a chain of stages, each a source-to-source stylesheet
transform, in order over a stylesheet. -/
def runChain (stage : CssPlugin → String → String) (plugins : List CssPlugin)
    (css : String) : String :=
  plugins.foldl (fun acc p => stage p acc) css

/-- The posts collection is a single filter over the content items. -/
theorem postsCollection_eq_filter (items : List ContentItem) :
    postsCollection items =
      items.filter (fun post =>
        matchesGlobPostsMd post.inputPath &&
        (post.data.hidden != JsValue.bool true)) := by
  unfold postsCollection getFilteredByGlob
  rw [List.filter_filter]
  congr 1
  funext a
  exact Bool.and_comm _ _

/-- C1: a Markdown content item under the posts glob that occurs exactly
once among the content items occurs exactly once in the derived posts
collection when its front-matter hidden attribute is not true, and does
not occur at all when the attribute is true. -/
theorem posts_collection_count (items : List ContentItem) (P : ContentItem)
    (hglob : matchesGlobPostsMd P.inputPath = true)
    (honce : items.count P = 1) :
    (postsCollection items).count P =
      (if P.data.hidden = JsValue.bool true then 0 else 1) := by
  rw [postsCollection_eq_filter]
  by_cases h : P.data.hidden = JsValue.bool true
  · rw [if_pos h, List.count_eq_zero]
    intro hmem
    have hp := (List.mem_filter.mp hmem).2
    rw [hglob, h] at hp
    simp at hp
  · rw [if_neg h, List.count_filter, honce]
    rw [hglob]
    simpa using h

/-- Witness for C1 at a concrete hidden and a concrete visible post. -/
theorem posts_collection_count_w :
    (postsCollection
        [⟨"_posts/a.md", ⟨JsValue.bool true⟩⟩,
         ⟨"_posts/b.md", ⟨JsValue.undefined⟩⟩]).count
        ⟨"_posts/a.md", ⟨JsValue.bool true⟩⟩ =
      (if (⟨"_posts/a.md", ⟨JsValue.bool true⟩⟩ : ContentItem).data.hidden =
          JsValue.bool true then 0 else 1) :=
  posts_collection_count _ _ (by decide) (by decide)

/-- C2: a content item under the posts glob whose hidden attribute is
undefined (absent, or unreadable front matter) is treated as not hidden
and is included in the derived collection. -/
theorem undefined_hidden_included (items : List ContentItem)
    (P : ContentItem) (hmem : P ∈ items)
    (hglob : matchesGlobPostsMd P.inputPath = true)
    (hundef : P.data.hidden = JsValue.undefined) :
    P ∈ postsCollection items := by
  rw [postsCollection_eq_filter]
  refine List.mem_filter.mpr ⟨hmem, ?_⟩
  rw [hglob, hundef]
  decide

/-- Witness for C2 at a concrete item with no hidden attribute. -/
theorem undefined_hidden_included_w :
    (⟨"_posts/b.md", ⟨JsValue.undefined⟩⟩ : ContentItem) ∈
      postsCollection
        [⟨"_posts/a.md", ⟨JsValue.bool true⟩⟩,
         ⟨"_posts/b.md", ⟨JsValue.undefined⟩⟩] :=
  undefined_hidden_included _ _ (by decide) (by decide) (by decide)

/-- C8: the derived posts collection is a subsequence of the input content
items: the filter keeps the discovery order and neither reorders, inserts
nor duplicates items. -/
theorem posts_collection_sublist (items : List ContentItem) :
    List.Sublist (postsCollection items) items := by
  rw [postsCollection_eq_filter]
  exact List.filter_sublist items

/-- C4: the layout alias table statically maps the symbolic name default
to layouts/default.njk and post to layouts/post.njk, these resolutions are
the only ones the table produces, and the table has exactly two entries. -/
theorem layout_alias_table (name tmpl : String) :
    (resolveLayout name = some tmpl ↔
      ((name = "default" ∧ tmpl = "layouts/default.njk") ∨
       (name = "post" ∧ tmpl = "layouts/post.njk"))) ∧
    layoutAliases.length = 2 := by
  refine ⟨?_, rfl⟩
  by_cases h1 : name = "default"
  · simp [resolveLayout, layoutAliases, List.find?, h1, eq_comm]
  · by_cases h2 : name = "post"
    · simp [resolveLayout, layoutAliases, List.find?, h1, h2, eq_comm]
    · have hb1 : ("default" == name) = false :=
        beq_eq_false_iff_ne.mpr (fun he => h1 he.symm)
      have hb2 : ("post" == name) = false :=
        beq_eq_false_iff_ne.mpr (fun he => h2 he.symm)
      simp [resolveLayout, layoutAliases, List.find?, hb1, hb2, h1, h2]

/-- Witness for C4: resolving the name default via the table theorem. -/
theorem layout_alias_table_w :
    resolveLayout "default" = some "layouts/default.njk" :=
  (layout_alias_table "default" "layouts/default.njk").1.mpr
    (Or.inl ⟨rfl, rfl⟩)

/-- C5: the effective CSS plugin chain is import inlining, utility-class
generation, nesting desugaring, then minification exactly when the env
flag is production; outside production, running the chain equals running
the three-stage chain without the minification stage. -/
theorem css_chain_order_and_minify (env : JsValue)
    (stage : CssPlugin → String → String) (css : String) :
    effectivePlugins env =
      (if env = JsValue.str "production" then
        [CssPlugin.postcssImport, CssPlugin.tailwindcss,
         CssPlugin.postcssNested, CssPlugin.cssnano]
      else
        [CssPlugin.postcssImport, CssPlugin.tailwindcss,
         CssPlugin.postcssNested]) ∧
    (env ≠ JsValue.str "production" →
      runChain stage (effectivePlugins env) css =
        runChain stage
          [CssPlugin.postcssImport, CssPlugin.tailwindcss,
           CssPlugin.postcssNested] css) := by
  by_cases h : env = JsValue.str "production"
  · refine ⟨?_, fun hne => absurd h hne⟩
    rw [if_pos h]
    simp [effectivePlugins, postcssConfig, if_pos h]
  · have hchain : effectivePlugins env =
        [CssPlugin.postcssImport, CssPlugin.tailwindcss,
         CssPlugin.postcssNested] := by
      simp [effectivePlugins, postcssConfig, if_neg h]
    exact ⟨by rw [if_neg h, hchain], fun _ => by rw [hchain]⟩

/-- Witness for C5 at the undefined env flag, an identity stage and the
empty stylesheet. -/
theorem css_chain_order_and_minify_w :
    effectivePlugins JsValue.undefined =
      [CssPlugin.postcssImport, CssPlugin.tailwindcss,
       CssPlugin.postcssNested] ∧
    runChain (fun _ s => s) (effectivePlugins JsValue.undefined) "" =
      runChain (fun _ s => s)
        [CssPlugin.postcssImport, CssPlugin.tailwindcss,
         CssPlugin.postcssNested] "" :=
  ⟨((css_chain_order_and_minify JsValue.undefined (fun _ s => s) "").1).trans
      (if_neg (by decide)),
   (css_chain_order_and_minify JsValue.undefined (fun _ s => s) "").2
      (by decide)⟩

/-- C10: the minifier entry is present in the plugins array exactly when
the env flag is strictly the string production; for every other value the
effective chain is the three non-minifying stages. -/
theorem cssnano_iff_env_production (env : JsValue) :
    (PluginEntry.plugin CssPlugin.cssnano ∈ postcssConfig env ↔
      env = JsValue.str "production") ∧
    (env ≠ JsValue.str "production" →
      effectivePlugins env =
        [CssPlugin.postcssImport, CssPlugin.tailwindcss,
         CssPlugin.postcssNested]) := by
  by_cases h : env = JsValue.str "production"
  · refine ⟨?_, fun hne => absurd h hne⟩
    simp [postcssConfig, if_pos h, h]
  · constructor
    · simp [postcssConfig, if_neg h, h]
    · intro _
      simp [effectivePlugins, postcssConfig, if_neg h]

/-- Witness for C10 at the env value PRODUCTION, which strict equality
rejects. -/
theorem cssnano_iff_env_production_w :
    (¬ PluginEntry.plugin CssPlugin.cssnano ∈
        postcssConfig (JsValue.str "PRODUCTION")) ∧
    effectivePlugins (JsValue.str "PRODUCTION") =
      [CssPlugin.postcssImport, CssPlugin.tailwindcss,
       CssPlugin.postcssNested] :=
  ⟨fun hmem =>
      absurd ((cssnano_iff_env_production (JsValue.str "PRODUCTION")).1.mp hmem)
        (by decide),
   (cssnano_iff_env_production (JsValue.str "PRODUCTION")).2 (by decide)⟩

/-- C3: for every invocation of the image shortcode, the options passed to
the image library hold exactly the five fixed widths and the designated
output directory, independent of the arguments, and the returned markup
carries the given sizes and alt attributes. -/
theorem image_shortcode_fixed_options (fs : FileSystem)
    (src alt sizes content : String) (h : fs src = some content) :
    imageShortcodeOptions.widths = [400, 800, 1000, 1200, 1450] ∧
    imageShortcodeOptions.outputDir = "./_site/img/" ∧
    ∃ s1 s2 s3, imageShortcode fs src alt sizes =
      Except.ok (s1 ++ sizes ++ s2 ++ alt ++ s3) := by
  refine ⟨rfl, rfl, ?_⟩
  refine ⟨"<img srcset=\"" ++
      srcsetOf (imageShortcodeOptions.widths.map (fun w =>
        ⟨w, imageShortcodeOptions.outputDir ++ toString w ++ "-" ++
          content⟩)) ++ "\" sizes=\"",
    "\" alt=\"", "\">", ?_⟩
  unfold imageShortcode imageTransform
  rw [h]
  rfl

/-- Witness for C3 at a one-file source tree. -/
theorem image_shortcode_fixed_options_w :
    imageShortcodeOptions.widths = [400, 800, 1000, 1200, 1450] ∧
    imageShortcodeOptions.outputDir = "./_site/img/" ∧
    ∃ s1 s2 s3,
      imageShortcode (fun _ => some "pixels") "a.png" "myalt" "100vw" =
        Except.ok (s1 ++ "100vw" ++ s2 ++ "myalt" ++ s3) :=
  image_shortcode_fixed_options (fun _ => some "pixels")
    "a.png" "myalt" "100vw" "pixels" rfl

/-- C6: two invocations of the image shortcode with identical arguments
over source trees that agree on the source path (the source file unchanged
between the invocations) produce identical output markup. -/
theorem image_shortcode_deterministic (fs fs' : FileSystem)
    (src alt sizes : String) (h : fs src = fs' src) :
    imageShortcode fs src alt sizes = imageShortcode fs' src alt sizes := by
  unfold imageShortcode imageTransform
  rw [h]

/-- Witness for C6: two distinct source trees agreeing on the path. -/
theorem image_shortcode_deterministic_w :
    imageShortcode (fun _ => some "pixels") "a.png" "myalt" "100vw" =
      imageShortcode
        (fun s => if s = "a.png" then some "pixels" else none)
        "a.png" "myalt" "100vw" :=
  image_shortcode_deterministic _ _ "a.png" "myalt" "100vw" (by decide)

/-- C7: when the source path does not resolve, the not-found error of the
image library propagates uncaught out of the shortcode, and the build
outcome is a non-zero exit with no published HTML. -/
theorem missing_image_aborts_build (fs : FileSystem)
    (src alt sizes : String) (h : fs src = none) :
    imageShortcode fs src alt sizes =
      Except.error ("Image file not found: " ++ src) ∧
    buildOutcome (imageShortcode fs src alt sizes) = (1, none) := by
  have he : imageShortcode fs src alt sizes =
      Except.error ("Image file not found: " ++ src) := by
    unfold imageShortcode imageTransform
    rw [h]
    rfl
  refine ⟨he, ?_⟩
  rw [he]
  rfl

/-- Witness for C7 at an empty source tree. -/
theorem missing_image_aborts_build_w :
    imageShortcode (fun _ => none) "a.png" "myalt" "100vw" =
      Except.error ("Image file not found: " ++ "a.png") ∧
    buildOutcome (imageShortcode (fun _ => none) "a.png" "myalt" "100vw") =
      (1, none) :=
  missing_image_aborts_build (fun _ => none) "a.png" "myalt" "100vw" rfl

/-- C9: the collection glob is the non-recursive pattern over the posts
directory: a content item whose path continues under the posts directory
with a further path separator (a file in a subdirectory), or whose path
does not end in the .md extension, is never a member of the derived posts
collection, whatever its front matter. -/
theorem posts_glob_excludes (items : List ContentItem) (P : ContentItem)
    (h : (∃ s, P.inputPath = "_posts/" ++ s ∧ '/' ∈ s.data) ∨
         ¬ (".md".data <:+ P.inputPath.data)) :
    P ∉ postsCollection items := by
  intro hmem
  rw [postsCollection_eq_filter] at hmem
  have hpred := (List.mem_filter.mp hmem).2
  rw [Bool.and_eq_true] at hpred
  have hglob := hpred.1
  unfold matchesGlobPostsMd at hglob
  rw [Bool.and_eq_true, Bool.and_eq_true, Bool.and_eq_true] at hglob
  obtain ⟨hpre, hsuf, hstar, hdot⟩ := hglob
  have hsuf' : ".md".data <:+ P.inputPath.data.drop 7 :=
    List.isSuffixOf_iff_suffix.mp hsuf
  rcases h with ⟨s, hpath, hslash⟩ | hnot
  · have hdata : P.inputPath.data = "_posts/".data ++ s.data := by
      rw [hpath, String.data_append]
    have hdrop : P.inputPath.data.drop 7 = s.data := by
      rw [hdata]
      exact List.drop_left' (by decide)
    rw [hdrop] at hsuf' hstar
    obtain ⟨front, hfront⟩ := hsuf'
    have hslash' : '/' ∈ front := by
      rw [← hfront] at hslash
      rcases List.mem_append.mp hslash with hf | hmd
      · exact hf
      · exact absurd hmd (by decide)
    have hlen : s.data.length - 3 = front.length := by
      rw [← hfront, List.length_append,
        show ".md".data.length = 3 from by decide, Nat.add_sub_cancel]
    have htake : s.data.take (s.data.length - 3) = front := by
      rw [hlen, ← hfront]
      exact List.take_left front _
    rw [htake] at hstar
    rw [Bool.not_eq_true'] at hstar
    have hnc : ¬ ('/' ∈ front) := by
      simpa [List.contains, List.elem_eq_mem] using hstar
    exact hnc hslash'
  · exact hnot (List.IsSuffix.trans hsuf' (List.drop_suffix 7 _))

/-- Witness for C9: a Markdown file in a subdirectory of the posts
directory is not collected. -/
theorem posts_glob_excludes_w :
    (⟨"_posts/sub/a.md", ⟨JsValue.undefined⟩⟩ : ContentItem) ∉
      postsCollection [⟨"_posts/sub/a.md", ⟨JsValue.undefined⟩⟩] :=
  posts_glob_excludes _ _
    (Or.inl ⟨"sub/a.md", by decide, by decide⟩)
